import Mathlib

/-!
A formal model of the expense-manager application (`expense_manager.py`).

Python floats are modelled as rationals (`ℚ`), Python lists as `List`,
Python `set` as `Finset String`, Python dicts with a fixed key set as
structures with `Option` fields (a `none` field models an absent key),
and raised exceptions as `Except`/`Option` results.  All definitions are
direct transcriptions of the corresponding Python functions.
-/

namespace ExpenseManager

/-- The `Record` dataclass: a single income/expense record. -/
structure Record where
  id : String
  amount : ℚ
  kind : String
  category : String
  timestamp : String
  note : String := ""
  overconsumption_mark : Bool := false
  deriving DecidableEq, Repr

/-- The `LoanRecord` dataclass: a loan/IOU record. -/
structure LoanRecord where
  id : String
  name : String
  amount : ℚ
  loan_date : String
  due_date : Option String := none
  repaid : Bool := false
  note : String := ""
  deriving DecidableEq, Repr

/-- The `settings` dict.  Python dicts may lack keys, so every field is an
`Option`; `none` models an absent key.  Only the five keys the program
ever reads are modelled. -/
structure SettingsDict where
  initial_balance : Option ℚ := none
  threshold_warn : Option ℚ := none
  threshold_urgent : Option ℚ := none
  reminder_enabled : Option Bool := none
  reminder_time : Option String := none
  deriving DecidableEq, Repr

/-- Python `dict.update`: every key present in `p` overrides the
corresponding key of `s`; keys absent from `p` are kept from `s`. -/
def SettingsDict.updateWith (s p : SettingsDict) : SettingsDict where
  initial_balance := match p.initial_balance with
    | some v => some v
    | none => s.initial_balance
  threshold_warn := match p.threshold_warn with
    | some v => some v
    | none => s.threshold_warn
  threshold_urgent := match p.threshold_urgent with
    | some v => some v
    | none => s.threshold_urgent
  reminder_enabled := match p.reminder_enabled with
    | some v => some v
    | none => s.reminder_enabled
  reminder_time := match p.reminder_time with
    | some v => some v
    | none => s.reminder_time

/-- Transcribes `settings.get('initial_balance', 0.0)` (the `float` coercion is the
identity on the numeric values modelled here). -/
def settingInitialBalance (s : SettingsDict) : ℚ := s.initial_balance.getD 0

/-- Transcribes `settings.get('threshold_warn', 3000.0)`. -/
def settingThresholdWarn (s : SettingsDict) : ℚ := s.threshold_warn.getD 3000

/-- Transcribes `settings.get('threshold_urgent', 1000.0)`. -/
def settingThresholdUrgent (s : SettingsDict) : ℚ := s.threshold_urgent.getD 1000

/-- The in-memory state of a `User` object: its records, loans, settings
dict and overconsumption-category set (a Python `set`, hence `Finset`).
The `storage` field only mirrors this state on disk and is not modelled. -/
structure User where
  records : List Record
  loans : List LoanRecord
  settings : SettingsDict
  overcats : Finset String
  deriving DecidableEq

/-- Transcribes `User.get_balance`:
`bal = float(settings.get('initial_balance', 0.0))`, then for every
record, add the amount when `kind == 'income'` and subtract it
otherwise. -/
def get_balance (u : User) : ℚ :=
  u.records.foldl
    (fun bal r => if r.kind == "income" then bal + r.amount else bal - r.amount)
    (settingInitialBalance u.settings)

/-! ### Specification-level sums used to state the claims -/

/-- Sum of the amounts of the records whose kind is exactly `income`. -/
def incomeSum (rs : List Record) : ℚ :=
  ((rs.filter (fun r => r.kind == "income")).map Record.amount).sum

/-- Sum of the amounts of the records whose kind is exactly `expense`. -/
def expenseSum (rs : List Record) : ℚ :=
  ((rs.filter (fun r => r.kind == "expense")).map Record.amount).sum

/-- Sum of the amounts of the records whose kind is anything other than
`income` (this is what the code actually subtracts / counts as expense). -/
def nonIncomeSum (rs : List Record) : ℚ :=
  ((rs.filter (fun r => r.kind != "income")).map Record.amount).sum

/-- Sum of the amounts of the expense records of one category. -/
def catExpenseSum (rs : List Record) (c : String) : ℚ :=
  ((rs.filter (fun r => r.kind == "expense" && r.category == c)).map Record.amount).sum

/-- A record list conforms to the data model when every kind is the
`income` or `expense` enum value. -/
abbrev KindsWF (rs : List Record) : Prop :=
  ∀ r ∈ rs, r.kind = "income" ∨ r.kind = "expense"

/-! ### Backup and restore (`User.create_backup`, `User.restore_from_backup`) -/

/-- The contents of a backup JSON file, as a partial top-level dict
(`none` = key absent).  The `backup_time` and `version` tags written by
`create_backup` are ignored by `restore_from_backup` and not modelled. -/
structure BackupData where
  records : Option (List Record) := none
  loans : Option (List LoanRecord) := none
  settings : Option SettingsDict := none
  overconsumption_categories : Option (List String) := none
  deriving DecidableEq

/-- Python `list(set)`: a Python set serialized as a list, in some order.  The
iteration order of a Python set is unspecified; the sorted order is used
here. -/
def setToList (s : Finset String) : List String := s.sort (· ≤ ·)

/-- Transcribes `User.create_backup`: the backup data is built from the current
values of the user state (and immediately serialized, so it is a value
snapshot). -/
def create_backup (u : User) : BackupData where
  records := some u.records
  loans := some u.loans
  settings := some u.settings
  overconsumption_categories := some (setToList u.overcats)

/-- Transcribes `User.restore_from_backup`: requires keys `records`, `loans`,
`settings` (otherwise raises `ValueError`, re-raised wrapped); replaces
records and loans wholesale, applies `settings.update`, and replaces the
category set only when the key is present. -/
def restore_from_backup (u : User) (b : BackupData) : Except String User :=
  match b.records, b.loans, b.settings with
  | some rs, some ls, some sp =>
      Except.ok
        { records := rs
          loans := ls
          settings := u.settings.updateWith sp
          overcats := match b.overconsumption_categories with
            | some cs => cs.toFinset
            | none => u.overcats }
  | _, _, _ => Except.error "恢复失败: 无效的备份文件格式"

/-- The user state observed after a `restore_from_backup` call: when the
call raises, the state is exactly what it was before, because in the
source every assignment to `self` occurs after the validation check. -/
def restorePostState (u : User) (b : BackupData) : User :=
  match restore_from_backup u b with
  | Except.ok u2 => u2
  | Except.error _ => u

/-! ### Persistence store (`Storage.__init__` / `Storage._load`) -/

/-- A parsed `data.json` snapshot, as a partial top-level dict. -/
structure DataFile where
  records : Option (List Record) := none
  loans : Option (List LoanRecord) := none
  settings : Option SettingsDict := none
  overconsumption_categories : Option (List String) := none
  deriving DecidableEq

/-- The `Storage._data` dict.  The default initializer in
`Storage.__init__` always populates all four top-level keys, so none of
them is optional here. -/
structure StorageData where
  records : List Record
  loans : List LoanRecord
  settings : SettingsDict
  overconsumption_categories : List String
  deriving DecidableEq

/-- The default `settings` dict from `Storage.__init__`. -/
def defaultSettings : SettingsDict where
  initial_balance := some 0
  threshold_warn := some 3000
  threshold_urgent := some 1000
  reminder_enabled := some false
  reminder_time := some "20:00"

/-- The default `_data` dict from `Storage.__init__`. -/
def defaultStorageData : StorageData where
  records := []
  loans := []
  settings := defaultSettings
  overconsumption_categories := []

/-- Python `self._data.update(data)`: each top-level key present in the file
fully replaces the default value; absent keys keep the default. -/
def StorageData.updateWith (d : StorageData) (j : DataFile) : StorageData where
  records := j.records.getD d.records
  loans := j.loans.getD d.loans
  settings := j.settings.getD d.settings
  overconsumption_categories :=
    j.overconsumption_categories.getD d.overconsumption_categories

/-- What `_load` finds on disk: no file, a file that fails to parse, or a
parsed JSON object. -/
inductive LoadSource where
  | missing
  | unparsable
  | parsed (j : DataFile)

/-- Transcribes `Storage.__init__` followed by `Storage._load`: start from the
default `_data`; if the file exists and parses, `update` with its
contents; a parse failure is logged and ignored. -/
def storageInit (src : LoadSource) : StorageData :=
  match src with
  | LoadSource.missing => defaultStorageData
  | LoadSource.unparsable => defaultStorageData
  | LoadSource.parsed j => defaultStorageData.updateWith j

/-! ### Statistics (`Statistics.filter_records`, `totals`,
`category_breakdown`, `monthly_series`) -/

/-- Python truthiness of an optional string: `None` and the empty string
are falsy (`filter_records` uses `if start:` / `if end:`). -/
def strTruthy : Option String → Bool
  | none => false
  | some s => s != ""

/-- Transcribes `Statistics.filter_records(start, end)`: keep records with
`timestamp >= start` (when `start` is truthy), then records with
`timestamp < end` (when `end` is truthy).  String comparison. -/
def filter_records (recs : List Record) (start stop : Option String) : List Record :=
  let recs1 :=
    if strTruthy start then recs.filter (fun r => start.getD "" ≤ r.timestamp) else recs
  if strTruthy stop then recs1.filter (fun r => r.timestamp < stop.getD "") else recs1

/-- The result dict of `Statistics.totals`. -/
structure TotalsResult where
  income : ℚ
  expense : ℚ
  balance : ℚ
  deriving DecidableEq, Repr

/-- The accumulation loop shared by `totals` and `monthly_series`:
income amounts in the first component, everything else in the second. -/
def incExpFold (rs : List Record) : ℚ × ℚ :=
  rs.foldl
    (fun (p : ℚ × ℚ) r =>
      if r.kind == "income" then (p.1 + r.amount, p.2) else (p.1, p.2 + r.amount))
    (0, 0)

/-- Transcribes `Statistics.totals`: income/expense sums over the filtered records;
`balance = income - expense + float(settings.get('initial_balance', 0.0))`. -/
def totals (u : User) (start stop : Option String) : TotalsResult :=
  let p := incExpFold (filter_records u.records start stop)
  { income := p.1
    expense := p.2
    balance := p.1 - p.2 + settingInitialBalance u.settings }

/-- A Python dict `category -> float`, as an ordered association list
(matching dict insertion order); `bucketsFind` is dict lookup. -/
def bucketsFind (b : List (String × ℚ)) (k : String) : Option ℚ :=
  (b.find? (fun p => p.1 == k)).map (fun p => p.2)

/-- Python `dict.setdefault(k, v)`: insert `(k, v)` at the end when `k` is not
yet a key. -/
def bucketsSetdefault (b : List (String × ℚ)) (k : String) (v : ℚ) : List (String × ℚ) :=
  if (b.find? (fun p => p.1 == k)).isSome then b else b ++ [(k, v)]

/-- Python `buckets[k] += v` (the code only ever does this right after a
`setdefault`, so the key is present). -/
def bucketsAdd (b : List (String × ℚ)) (k : String) (v : ℚ) : List (String × ℚ) :=
  b.map (fun p => if p.1 == k then (p.1, p.2 + v) else p)

/-- The loop body of `Statistics.category_breakdown`:
`buckets.setdefault(r.category, 0.0)`; expense amounts are added to the
category bucket, all other amounts to the `Income` bucket (created on
demand). -/
def breakdownStep (b : List (String × ℚ)) (r : Record) : List (String × ℚ) :=
  let b1 := bucketsSetdefault b r.category 0
  if r.kind == "expense" then
    bucketsAdd b1 r.category r.amount
  else
    bucketsAdd (bucketsSetdefault b1 "Income" 0) "Income" r.amount

/-- Transcribes `Statistics.category_breakdown(start, end)`. -/
def category_breakdown (recs : List Record) (start stop : Option String) :
    List (String × ℚ) :=
  (filter_records recs start stop).foldl breakdownStep []

/-- The `while m <= 0: y -= 1; m += 12` normalization loop of
`monthly_series`. -/
def normMonth (y m : ℤ) : ℤ × ℤ :=
  if m ≤ 0 then normMonth (y - 1) (m + 12) else (y, m)
termination_by (1 - m).toNat
decreasing_by
  simp_wf
  omega

/-- Two-digit zero padding (`%m` / isoformat month field). -/
def pad2 (n : ℤ) : String := (if n < 10 then "0" else "") ++ toString n

/-- Four-digit zero padding (the year field of `isoformat`; `%Y` agrees
with it for the four-digit years a running system produces). -/
def pad4 (n : ℤ) : String :=
  (if n < 10 then "000" else if n < 100 then "00" else if n < 1000 then "0" else "") ++
    toString n

/-- Transcribes `start.strftime('%Y-%m')`. -/
def monthLabel (y m : ℤ) : String := pad4 y ++ "-" ++ pad2 m

/-- Transcribes `datetime.combine(date(y, m, 1), time.min).isoformat()`, the
`YYYY-MM-01T00:00:00` string bounding a month. -/
def monthStartIso (y m : ℤ) : String := pad4 y ++ "-" ++ pad2 m ++ "-01T00:00:00"

/-- The end month computed in `monthly_series`:
`date(y+1, 1, 1)` when `m == 12`, else `date(y, m+1, 1)`. -/
def monthEnd (y m : ℤ) : ℤ × ℤ := if m == 12 then (y + 1, 1) else (y, m + 1)

/-- One iteration of the `monthly_series` loop for month `(y, m)`:
label plus income/expense sums over the half-open month range. -/
def month_entry (recs : List Record) (y m : ℤ) : String × ℚ × ℚ :=
  let startIso := monthStartIso y m
  let stopIso := monthStartIso (monthEnd y m).1 (monthEnd y m).2
  let p := incExpFold (filter_records recs (some startIso) (some stopIso))
  (monthLabel y m, p.1, p.2)

/-- Transcribes `Statistics.monthly_series(months)` as a function of the current
year and month (`today = date.today()`; only `today.year` and
`today.month` are used — the `first` local variable in the source is
dead code).  The loop runs `i = months-1` down to `0` and normalizes
`(today.year, today.month - i)`. -/
def monthly_series (recs : List Record) (todayY todayM : ℤ) (months : ℕ) :
    List (String × ℚ × ℚ) :=
  ((List.range months).reverse).map (fun (i : ℕ) =>
    let ym := normMonth todayY (todayM - (i : ℤ))
    month_entry recs ym.1 ym.2)

/-! ### Reminder engine (`ReminderService.check_thresholds`) -/

/-- The two hysteresis flags `_warned_low` / `_warned_urgent`. -/
structure ReminderFlags where
  warned_low : Bool
  warned_urgent : Bool
  deriving DecidableEq, Repr

/-- The notification kinds passed to `_notify`. -/
inductive NotifKind where
  | urgent
  | warn
  | over
  | loan
  deriving DecidableEq, Repr

/-- Transcribes `ReminderService.check_thresholds`, rendered statement by
statement: reads the balance and the two thresholds, then runs the
three-branch flag update, emitting at most one notification (notification
message text is not modelled, only the kind). -/
def check_thresholds (fl : ReminderFlags) (u : User) : ReminderFlags × List NotifKind :=
  let bal := get_balance u
  let warn := settingThresholdWarn u.settings
  let urgent := settingThresholdUrgent u.settings
  if bal ≤ urgent then
    let p :=
      if !fl.warned_urgent then ({ fl with warned_urgent := true }, [NotifKind.urgent])
      else (fl, [])
    ({ p.1 with warned_low := true }, p.2)
  else if bal ≤ warn then
    let p :=
      if !fl.warned_low then ({ fl with warned_low := true }, [NotifKind.warn])
      else (fl, [])
    ({ p.1 with warned_urgent := false }, p.2)
  else
    ({ warned_low := false, warned_urgent := false }, [])

/-- The threshold-check step exactly as the specification words it:
urgent band → emit `urgent` iff `warned_urgent` was false, set both
flags true; warn band → emit `warn` iff `warned_low` was false, set
`warned_low := true` and `warned_urgent := false`; safe band → silently
reset both flags. -/
def check_thresholds_spec (fl : ReminderFlags) (bal warn urgent : ℚ) :
    ReminderFlags × List NotifKind :=
  if bal ≤ urgent then
    (⟨true, true⟩, if fl.warned_urgent then [] else [NotifKind.urgent])
  else if bal ≤ warn then
    (⟨true, false⟩, if fl.warned_low then [] else [NotifKind.warn])
  else
    (⟨false, false⟩, [])

/-! ### The dynamically-typed record model (for `update_record`)

`update_record` stores keyword-argument values with `setattr`, with no
type coercion, so a faithful model must allow a record attribute to hold
a value of any runtime type. -/

/-- A dynamically typed Python value (the value of a keyword argument). -/
inductive PyVal where
  | str (s : String)
  | num (q : ℚ)
  | bool (b : Bool)
  deriving DecidableEq, Repr

/-- A `Record` object as it exists at runtime: Python does not enforce
the dataclass field annotations, so every attribute holds an arbitrary
value. -/
structure DynRecord where
  id : PyVal
  amount : PyVal
  kind : PyVal
  category : PyVal
  timestamp : PyVal
  note : PyVal
  overconsumption_mark : PyVal
  deriving DecidableEq, Repr

/-- Python `hasattr(record, k)` for a `Record` dataclass instance. -/
def recordHasattr (k : String) : Bool :=
  k == "id" || k == "amount" || k == "kind" || k == "category" ||
  k == "timestamp" || k == "note" || k == "overconsumption_mark"

/-- Python `setattr(record, k, v)` on the seven `Record` attributes: the value
is stored verbatim. -/
def recordSetattr (r : DynRecord) (k : String) (v : PyVal) : DynRecord :=
  if k == "id" then { r with id := v }
  else if k == "amount" then { r with amount := v }
  else if k == "kind" then { r with kind := v }
  else if k == "category" then { r with category := v }
  else if k == "timestamp" then { r with timestamp := v }
  else if k == "note" then { r with note := v }
  else if k == "overconsumption_mark" then { r with overconsumption_mark := v }
  else r

/-- The kwargs loop of `update_record`:
`for k, v in kwargs.items(): if hasattr(r, k): setattr(r, k, v)`. -/
def applyKwargs (r : DynRecord) (kwargs : List (String × PyVal)) : DynRecord :=
  kwargs.foldl (fun r kv => if recordHasattr kv.1 then recordSetattr r kv.1 kv.2 else r) r

/-- Transcribes `User.update_record`: linear scan for the first record whose `id`
equals `record_id`; apply the keyword arguments to it in place, persist
(`set_records`) and return it; `None` (and no persist) when no record
matches.  Result: the new record list, the returned value, and whether a
persist happened. -/
def update_record : List DynRecord → PyVal → List (String × PyVal) →
    List DynRecord × Option DynRecord × Bool
  | [], _, _ => ([], none, false)
  | r :: rs, rid, kwargs =>
    if r.id == rid then
      let r2 := applyKwargs r kwargs
      (r2 :: rs, some r2, true)
    else
      let rest := update_record rs rid kwargs
      (r :: rest.1, rest.2.1, rest.2.2)

/-- Python `float()` on a dynamic value, parameterized by the conversion
used for string arguments (`float` parses numeric strings and raises
otherwise; its exact parsing rules do not matter to any claim).
`none` models a raised exception. -/
def pyFloat (floatOfStr : String → Option ℚ) : PyVal → Option ℚ
  | PyVal.str s => floatOfStr s
  | PyVal.num q => some q
  | PyVal.bool b => some (if b then 1 else 0)

/-- Transcribes `User.add_record`: the amount is coerced with `float(amount)`, the
timestamp defaults to now when falsy, `overconsumption_mark` is computed
from the current category set, and the record is appended and persisted.
`newId` stands for the generated uuid and `nowIso` for `now_iso()`. -/
def add_record (floatOfStr : String → Option ℚ) (records : List DynRecord)
    (overcats : Finset String) (newId nowIso : String) (amount : PyVal)
    (kind category : String) (timestamp : Option String) (note : String) :
    Option (List DynRecord × DynRecord) :=
  match pyFloat floatOfStr amount with
  | none => none
  | some a =>
    let ts := match timestamp with
      | some t => if t == "" then nowIso else t
      | none => nowIso
    let rec2 : DynRecord :=
      { id := PyVal.str newId
        amount := PyVal.num a
        kind := PyVal.str kind
        category := PyVal.str category
        timestamp := PyVal.str ts
        note := PyVal.str note
        overconsumption_mark := PyVal.bool (category ∈ overcats) }
    some (records ++ [rec2], rec2)

/-- The last value bound to a key in a kwargs list (kwargs form a dict,
so in reality each name appears at most once; for a general list the
last binding wins, matching the left-to-right loop). -/
def lastVal (kwargs : List (String × PyVal)) (k : String) (d : PyVal) : PyVal :=
  kwargs.foldl (fun acc kv => if kv.1 == k then kv.2 else acc) d

/-- The specification's view of one `monthly_series` entry, for the
absolute month index `n` (months counted from the start of year 0, so
the calendar month `(y, m)` has index `12*y + (m-1)`): the `YYYY-MM`
label of that month and the income and expense sums over the half-open
string range from the first instant of the month to the first instant of
the next month. -/
def specMonthEntry (recs : List Record) (n : ℤ) : String × ℚ × ℚ :=
  let fr := filter_records recs
    (some (monthStartIso (n / 12) (n % 12 + 1)))
    (some (monthStartIso ((n + 1) / 12) ((n + 1) % 12 + 1)))
  (monthLabel (n / 12) (n % 12 + 1), incomeSum fr, expenseSum fr)

/-! ### Per-bucket view of the breakdown loop (used to state C6) -/

/-- Whether processing record `r` creates or touches bucket `k`: its own
category bucket always, and the `Income` bucket when it is not an
expense. -/
def encounterB (r : Record) (k : String) : Bool :=
  r.category == k || (r.kind != "expense" && k == "Income")

/-- The amount record `r` adds to bucket `k`: an expense adds to its
category bucket, anything else adds to `Income`. -/
def contrib (r : Record) (k : String) : ℚ :=
  if r.kind == "expense" then (if r.category == k then r.amount else 0)
  else (if k == "Income" then r.amount else 0)

/-- The evolution of a single bucket value along the breakdown loop. -/
def specAccum (v : Option ℚ) (rs : List Record) (k : String) : Option ℚ :=
  rs.foldl (fun v r => if encounterB r k then some (v.getD 0 + contrib r k) else v) v

/-- The total contribution of a record list to bucket `k`. -/
def sumContrib (rs : List Record) (k : String) : ℚ :=
  (rs.map (fun r => contrib r k)).sum

/-! ### Concrete states used to instantiate the theorems -/

/-- The record pair from the specification example:
(income, 200, 2025-01-01) and (expense, 150, 2025-01-02). -/
def exampleRecords : List Record :=
  [{ id := "r1", amount := 200, kind := "income", category := "salary",
     timestamp := "2025-01-01T10:00:00" },
   { id := "r2", amount := 150, kind := "expense", category := "food",
     timestamp := "2025-01-02T10:00:00" }]

/-- The account of the specification example: the two records above with
`initial_balance = 500`. -/
def exampleUser : User where
  records := exampleRecords
  loans := []
  settings := { defaultSettings with initial_balance := some 500 }
  overcats := ∅

/-- A second, different account state (used as the state reached by
intervening mutations). -/
def exampleUserB : User where
  records := [{ id := "r9", amount := 70, kind := "expense", category := "toys",
                timestamp := "2025-03-01T09:00:00" }]
  loans := [{ id := "l1", name := "bob", amount := 40, loan_date := "2025-02-01" }]
  settings := { defaultSettings with initial_balance := some 9999 }
  overcats := {"toys"}

/-- A backup file whose `records` key is missing. -/
def badBackup : BackupData where
  loans := some []
  settings := some defaultSettings

/-- A concrete runtime record. -/
def dynA : DynRecord where
  id := PyVal.str "a"
  amount := PyVal.num 10
  kind := PyVal.str "expense"
  category := PyVal.str "food"
  timestamp := PyVal.str "2025-01-03T08:00:00"
  note := PyVal.str ""
  overconsumption_mark := PyVal.bool false

/-- A second concrete runtime record. -/
def dynB : DynRecord where
  id := PyVal.str "b"
  amount := PyVal.num 25
  kind := PyVal.str "income"
  category := PyVal.str "salary"
  timestamp := PyVal.str "2025-01-04T08:00:00"
  note := PyVal.str "x"
  overconsumption_mark := PyVal.bool false

/-! ## Theorems -/

theorem get_balance_foldl (rs : List Record) (b : ℚ) :
    rs.foldl
      (fun bal r => if r.kind == "income" then bal + r.amount else bal - r.amount)
      b = b + incomeSum rs - nonIncomeSum rs := by
  induction rs generalizing b with
  | nil => simp [incomeSum, nonIncomeSum]
  | cons r rs ih =>
    simp only [List.foldl_cons]
    rw [ih]
    by_cases h : r.kind = "income"
    · simp only [incomeSum, nonIncomeSum, List.filter_cons, h]
      simp
      ring
    · simp only [incomeSum, nonIncomeSum, List.filter_cons]
      simp [h]
      ring

theorem get_balance_eq (u : User) :
    get_balance u =
      settingInitialBalance u.settings + incomeSum u.records - nonIncomeSum u.records :=
  get_balance_foldl u.records (settingInitialBalance u.settings)

/-- When every record kind is `income` or `expense`, the records counted
as non-income are exactly the `expense` records. -/
theorem nonIncomeSum_eq_expenseSum (rs : List Record) (wf : KindsWF rs) :
    nonIncomeSum rs = expenseSum rs := by
  unfold nonIncomeSum expenseSum
  have hf : rs.filter (fun r => r.kind != "income") =
      rs.filter (fun r => r.kind == "expense") := by
    apply List.filter_congr
    intro r hr
    rcases wf r hr with h | h <;> simp [h]
  rw [hf]

theorem settingInitialBalance_updateWith (s p : SettingsDict)
    (h : p.initial_balance.isSome) :
    settingInitialBalance (s.updateWith p) = settingInitialBalance p := by
  obtain ⟨v, hv⟩ := Option.isSome_iff_exists.mp h
  simp [SettingsDict.updateWith, settingInitialBalance, hv]

theorem incExpFold_loop (rs : List Record) (a b : ℚ) :
    rs.foldl
      (fun (p : ℚ × ℚ) r =>
        if r.kind == "income" then (p.1 + r.amount, p.2) else (p.1, p.2 + r.amount))
      (a, b) = (a + incomeSum rs, b + nonIncomeSum rs) := by
  induction rs generalizing a b with
  | nil => simp [incomeSum, nonIncomeSum]
  | cons r rs ih =>
    simp only [List.foldl_cons]
    by_cases h : r.kind = "income"
    · have hb : (r.kind == "income") = true := by simp [h]
      simp only [hb, if_true]
      rw [ih]
      simp only [incomeSum, nonIncomeSum, List.filter_cons, h]
      simp
      ring
    · have hb : (r.kind == "income") = false := by simp [h]
      simp only [hb, Bool.false_eq_true, if_false]
      rw [ih]
      simp only [incomeSum, nonIncomeSum, List.filter_cons]
      simp [h]
      ring

theorem incExpFold_eq (rs : List Record) :
    incExpFold rs = (incomeSum rs, nonIncomeSum rs) := by
  have h := incExpFold_loop rs 0 0
  simpa [incExpFold] using h

/-- Claim C1: for every account state (conforming to the data model,
whose record kinds are the enum values `income`/`expense`),
`get_balance()` returns `initial_balance + Σ income − Σ expense` over
the full record sequence; on the example records
`[(income, 200), (expense, 150)]` with `initial_balance = 500` it
returns `550`. -/
theorem claim_c1 :
    (∀ u : User, KindsWF u.records →
      get_balance u =
        settingInitialBalance u.settings + incomeSum u.records - expenseSum u.records) ∧
    get_balance exampleUser = 550 := by
  constructor
  · intro u wf
    rw [get_balance_eq, nonIncomeSum_eq_expenseSum u.records wf]
  · norm_num [get_balance, exampleUser, exampleRecords, settingInitialBalance,
      defaultSettings]
    decide

/-- Witness for C1 at the specification's example state. -/
theorem claim_c1_witness :
    KindsWF exampleUser.records ∧
    get_balance exampleUser =
      settingInitialBalance exampleUser.settings + incomeSum exampleUser.records -
        expenseSum exampleUser.records :=
  ⟨by decide, claim_c1.1 exampleUser (by decide)⟩

/-- Claim C2: one poll of the threshold check behaves exactly as the
three-branch rule of the specification: urgent band → emit `urgent` iff
`warned_urgent` was false, then both flags true, nothing further
evaluated; warn band → emit `warn` iff `warned_low` was false, then
`warned_low := true`, `warned_urgent := false`; safe band → no emission,
both flags false. -/
theorem claim_c2 (fl : ReminderFlags) (u : User) :
    check_thresholds fl u =
      check_thresholds_spec fl (get_balance u) (settingThresholdWarn u.settings)
        (settingThresholdUrgent u.settings) := by
  obtain ⟨wl, wu⟩ := fl
  cases wl <;> cases wu <;>
    simp only [check_thresholds, check_thresholds_spec] <;>
    split_ifs <;> simp_all

/-- Claim C3: `restore_from_backup` on a backup missing one of the keys
`records`, `loans`, `settings` raises a validation error and leaves the
account state exactly as it was (validation precedes every mutation). -/
theorem claim_c3 (u : User) (b : BackupData)
    (h : b.records = none ∨ b.loans = none ∨ b.settings = none) :
    (∃ msg, restore_from_backup u b = Except.error msg) ∧
      restorePostState u b = u := by
  have herr : ∃ msg, restore_from_backup u b = Except.error msg := by
    obtain ⟨br, bl, bs, bo⟩ := b
    rcases h with h | h | h
    · obtain rfl : br = none := h
      cases bl <;> cases bs <;> exact ⟨_, rfl⟩
    · obtain rfl : bl = none := h
      cases br <;> cases bs <;> exact ⟨_, rfl⟩
    · obtain rfl : bs = none := h
      cases br <;> cases bl <;> exact ⟨_, rfl⟩
  obtain ⟨msg, hmsg⟩ := herr
  exact ⟨⟨msg, hmsg⟩, by simp [restorePostState, hmsg]⟩

/-- Witness for C3: a concrete backup file with no `records` key. -/
theorem claim_c3_witness :
    (badBackup.records = none ∨ badBackup.loans = none ∨ badBackup.settings = none) ∧
    ((∃ msg, restore_from_backup exampleUser badBackup = Except.error msg) ∧
      restorePostState exampleUser badBackup = exampleUser) :=
  ⟨Or.inl rfl, claim_c3 exampleUser badBackup (Or.inl rfl)⟩

/-- Claim C4: `create_backup` at state `S` followed (after any
intervening mutations, i.e. from an arbitrary live state `T`) by
`restore_from_backup` on the produced data restores `get_balance`, the
overconsumption category set, the record sequence and the loan sequence
of `S` — the backup is a value snapshot.  `S` is assumed to carry an
`initial_balance` settings key (true of every state built over the
default settings, which always populate it). -/
theorem claim_c4 (S T : User) (hS : S.settings.initial_balance.isSome) :
    ∃ S2, restore_from_backup T (create_backup S) = Except.ok S2 ∧
      get_balance S2 = get_balance S ∧ S2.overcats = S.overcats ∧
      S2.records = S.records ∧ S2.loans = S.loans := by
  refine ⟨_, rfl, ?_, ?_, rfl, rfl⟩
  · rw [get_balance_eq, get_balance_eq]
    simp only [settingInitialBalance_updateWith T.settings S.settings hS]
  · simpa [setToList] using Finset.sort_toFinset _ S.overcats

/-- Witness for C4: backup `exampleUser`, mutate to `exampleUserB`,
restore. -/
theorem claim_c4_witness :
    exampleUser.settings.initial_balance.isSome ∧
    ∃ S2, restore_from_backup exampleUserB (create_backup exampleUser) = Except.ok S2 ∧
      get_balance S2 = get_balance exampleUser ∧ S2.overcats = exampleUser.overcats ∧
      S2.records = exampleUser.records ∧ S2.loans = exampleUser.loans :=
  ⟨by decide, claim_c4 exampleUser exampleUserB (by decide)⟩

/-- Claim C5: loading from a missing snapshot yields the fixed default
data (empty records/loans, the five default settings keys, empty
category list); loading a parsed snapshot merges it shallowly over the
defaults — each absent top-level key keeps its default and each present
top-level key fully replaces it (in particular a present `settings`
object replaces the default settings object wholesale). -/
theorem claim_c5 (j : DataFile) :
    storageInit LoadSource.missing = defaultStorageData ∧
    defaultStorageData.records = [] ∧
    defaultStorageData.loans = [] ∧
    defaultStorageData.settings.initial_balance = some 0 ∧
    defaultStorageData.settings.threshold_warn = some 3000 ∧
    defaultStorageData.settings.threshold_urgent = some 1000 ∧
    defaultStorageData.settings.reminder_enabled = some false ∧
    defaultStorageData.settings.reminder_time = some "20:00" ∧
    defaultStorageData.overconsumption_categories = [] ∧
    (storageInit (LoadSource.parsed j)).records = j.records.getD defaultStorageData.records ∧
    (storageInit (LoadSource.parsed j)).loans = j.loans.getD defaultStorageData.loans ∧
    (storageInit (LoadSource.parsed j)).settings =
      j.settings.getD defaultStorageData.settings ∧
    (storageInit (LoadSource.parsed j)).overconsumption_categories =
      j.overconsumption_categories.getD defaultStorageData.overconsumption_categories :=
  ⟨rfl, rfl, rfl, rfl, rfl, rfl, rfl, rfl, rfl, rfl, rfl, rfl, rfl⟩

/-- Claim C8: `Statistics.totals` with no bounds reports a `balance`
equal to `User.get_balance()` on the same state. -/
theorem claim_c8 (u : User) : (totals u none none).balance = get_balance u := by
  have hf : filter_records u.records none none = u.records := rfl
  simp only [totals, hf, incExpFold_eq, get_balance_eq]
  ring

/-- Claim C9: in `get_balance` and in `totals`, every record whose kind
is not exactly `income` is counted as an expense — subtracted from the
balance and added to the expense total; there is no third branch. -/
theorem claim_c9 (u : User) (start stop : Option String) :
    get_balance u =
      settingInitialBalance u.settings + incomeSum u.records - nonIncomeSum u.records ∧
    (totals u start stop).expense = nonIncomeSum (filter_records u.records start stop) ∧
    (totals u start stop).income = incomeSum (filter_records u.records start stop) := by
  refine ⟨get_balance_eq u, ?_, ?_⟩ <;> simp [totals, incExpFold_eq]

/-- One pass of the kwargs loop, described field by field: the value is
stored verbatim in the matching attribute; non-attribute names change
nothing. -/
theorem kwargsStep_eq (r : DynRecord) (k : String) (v : PyVal) :
    (if recordHasattr k then recordSetattr r k v else r) =
      { id := if k == "id" then v else r.id
        amount := if k == "amount" then v else r.amount
        kind := if k == "kind" then v else r.kind
        category := if k == "category" then v else r.category
        timestamp := if k == "timestamp" then v else r.timestamp
        note := if k == "note" then v else r.note
        overconsumption_mark :=
          if k == "overconsumption_mark" then v else r.overconsumption_mark } := by
  by_cases h1 : k = "id"
  · subst h1; rfl
  by_cases h2 : k = "amount"
  · subst h2; rfl
  by_cases h3 : k = "kind"
  · subst h3; rfl
  by_cases h4 : k = "category"
  · subst h4; rfl
  by_cases h5 : k = "timestamp"
  · subst h5; rfl
  by_cases h6 : k = "note"
  · subst h6; rfl
  by_cases h7 : k = "overconsumption_mark"
  · subst h7; rfl
  simp [recordHasattr, recordSetattr, h1, h2, h3, h4, h5, h6, h7]

/-- The whole kwargs loop, described field by field via `lastVal`. -/
theorem applyKwargs_eq (kwargs : List (String × PyVal)) (r : DynRecord) :
    applyKwargs r kwargs =
      { id := lastVal kwargs "id" r.id
        amount := lastVal kwargs "amount" r.amount
        kind := lastVal kwargs "kind" r.kind
        category := lastVal kwargs "category" r.category
        timestamp := lastVal kwargs "timestamp" r.timestamp
        note := lastVal kwargs "note" r.note
        overconsumption_mark :=
          lastVal kwargs "overconsumption_mark" r.overconsumption_mark } := by
  induction kwargs generalizing r with
  | nil => rfl
  | cons kv kw ih =>
    simp only [applyKwargs, List.foldl_cons] at ih ⊢
    rw [kwargsStep_eq]
    exact ih _

theorem update_record_not_found (rs : List DynRecord) (rid : PyVal)
    (kwargs : List (String × PyVal)) (h : ∀ r ∈ rs, r.id ≠ rid) :
    update_record rs rid kwargs = (rs, none, false) := by
  induction rs with
  | nil => rfl
  | cons r rs ih =>
    have hr : (r.id == rid) = false := by
      simp [h r (List.mem_cons_self r rs)]
    simp [update_record, hr, ih (fun q hq => h q (List.mem_cons_of_mem r hq))]

theorem update_record_found (rs1 : List DynRecord) (r : DynRecord)
    (rs2 : List DynRecord) (kwargs : List (String × PyVal))
    (h1 : ∀ q ∈ rs1, q.id ≠ r.id) :
    update_record (rs1 ++ r :: rs2) r.id kwargs =
      (rs1 ++ applyKwargs r kwargs :: rs2, some (applyKwargs r kwargs), true) := by
  induction rs1 with
  | nil => simp [update_record]
  | cons q qs ih =>
    have hq : (q.id == r.id) = false := by
      simp [h1 q (List.mem_cons_self q qs)]
    simp [update_record, hq, ih (fun p hp => h1 p (List.mem_cons_of_mem q hp))]

/-- Claim C10: `update_record` finds the first record with the given id;
each keyword argument whose name is a `Record` attribute — `id`,
`timestamp` and `overconsumption_mark` included — is stored verbatim
(no coercion: the stored value is the argument itself, whatever its
runtime type, unlike `add_record`, which coerces the amount with
`float()`); non-attribute names are silently ignored (the result is
fully described by the seven attribute values); a persist happens iff a
record was found; updating with `id=new_id` changes the identifier. -/
theorem claim_c10 :
    (∀ (rs : List DynRecord) (rid : PyVal) (kwargs : List (String × PyVal)),
      (∀ r ∈ rs, r.id ≠ rid) → update_record rs rid kwargs = (rs, none, false)) ∧
    (∀ (rs1 : List DynRecord) (r : DynRecord) (rs2 : List DynRecord)
        (kwargs : List (String × PyVal)), (∀ q ∈ rs1, q.id ≠ r.id) →
      update_record (rs1 ++ r :: rs2) r.id kwargs =
        (rs1 ++ applyKwargs r kwargs :: rs2, some (applyKwargs r kwargs), true)) ∧
    (∀ (r : DynRecord) (kwargs : List (String × PyVal)),
      applyKwargs r kwargs =
        { id := lastVal kwargs "id" r.id
          amount := lastVal kwargs "amount" r.amount
          kind := lastVal kwargs "kind" r.kind
          category := lastVal kwargs "category" r.category
          timestamp := lastVal kwargs "timestamp" r.timestamp
          note := lastVal kwargs "note" r.note
          overconsumption_mark :=
            lastVal kwargs "overconsumption_mark" r.overconsumption_mark }) ∧
    (∀ (r : DynRecord) (rs : List DynRecord) (v : PyVal),
      update_record (r :: rs) r.id [("id", v)] =
        ({ r with id := v } :: rs, some { r with id := v }, true)) ∧
    (∀ (floatOfStr : String → Option ℚ) (rs : List DynRecord)
        (overcats : Finset String) (newId nowIso kind category note : String),
      (add_record floatOfStr rs overcats newId nowIso (PyVal.bool true) kind category
          none note).map (fun p => p.2.amount) = some (PyVal.num 1) ∧
      PyVal.num 1 ≠ PyVal.bool true) := by
  refine ⟨update_record_not_found, update_record_found,
    fun r kwargs => applyKwargs_eq kwargs r, ?_, ?_⟩
  · intro r rs v
    have h := update_record_found [] r rs [("id", v)] (by simp)
    simpa [applyKwargs, recordHasattr, recordSetattr] using h
  · intro floatOfStr rs overcats newId nowIso kind category note
    exact ⟨rfl, by decide⟩

/-- Witness for C10: a miss leaves the list untouched with no persist; a
hit applies the kwargs, ignoring the unknown name `bogus`, and stores the
string `oops` verbatim as the amount. -/
theorem claim_c10_witness :
    (∀ r ∈ [dynA], r.id ≠ PyVal.str "zz") ∧
    update_record [dynA] (PyVal.str "zz") [("amount", PyVal.num 5)] =
      ([dynA], none, false) ∧
    update_record [dynB] dynB.id [("amount", PyVal.str "oops"), ("bogus", PyVal.num 3)] =
      ([applyKwargs dynB [("amount", PyVal.str "oops"), ("bogus", PyVal.num 3)]],
        some (applyKwargs dynB [("amount", PyVal.str "oops"), ("bogus", PyVal.num 3)]),
        true) ∧
    (applyKwargs dynB [("amount", PyVal.str "oops"), ("bogus", PyVal.num 3)]).amount =
      PyVal.str "oops" := by
  refine ⟨by decide, claim_c10.1 [dynA] (PyVal.str "zz") _ (by decide), ?_, ?_⟩
  · exact claim_c10.2.1 [] dynB [] _ (by decide)
  · rw [claim_c10.2.2.1 dynB _]
    decide

theorem mem_filter_records (recs : List Record) (start stop : Option String)
    (r : Record) (h : r ∈ filter_records recs start stop) : r ∈ recs := by
  unfold filter_records at h
  by_cases h1 : strTruthy start <;> by_cases h2 : strTruthy stop <;>
    simp [h1, h2, List.mem_filter] at h <;> tauto

theorem bucketsFind_setdefault (b : List (String × ℚ)) (k : String) (v : ℚ)
    (k2 : String) :
    bucketsFind (bucketsSetdefault b k v) k2 =
      if k2 = k then some ((bucketsFind b k).getD v) else bucketsFind b k2 := by
  unfold bucketsSetdefault
  by_cases hp : (List.find? (fun p => p.1 == k) b).isSome
  · rw [if_pos hp]
    by_cases he : k2 = k
    · subst he
      obtain ⟨p, hp2⟩ := Option.isSome_iff_exists.mp hp
      simp [bucketsFind, hp2]
    · simp [he]
  · rw [if_neg hp]
    have hnone : List.find? (fun p => p.1 == k) b = none :=
      Option.not_isSome_iff_eq_none.mp hp
    by_cases he : k2 = k
    · subst he
      simp [bucketsFind, List.find?_append, hnone]
    · simp [bucketsFind, List.find?_append, he, Ne.symm he, hnone]

theorem bucketsFind_add (b : List (String × ℚ)) (k : String) (v : ℚ) (k2 : String) :
    bucketsFind (bucketsAdd b k v) k2 =
      if k2 = k then (bucketsFind b k2).map (fun q => q + v)
      else bucketsFind b k2 := by
  have hkey : ∀ q : String × ℚ,
      (((fun p => if p.1 == k then (p.1, p.2 + v) else p) q).1 == k2) = (q.1 == k2) := by
    intro q
    by_cases h : (q.1 == k) = true <;> simp [h]
  unfold bucketsAdd bucketsFind
  rw [List.find?_map]
  simp only [Function.comp_def, hkey]
  cases hfind : List.find? (fun q => q.1 == k2) b with
  | none => simp [hfind]
  | some q =>
    have hq2 : q.1 = k2 := by simpa using List.find?_some hfind
    by_cases hk : k2 = k
    · subst hk
      simp [hfind, hq2]
    · have hne : ¬ q.1 = k := by
        rw [hq2]
        exact hk
      simp [hfind, hne, hk]

theorem breakdownStep_find (b : List (String × ℚ)) (r : Record) (k : String) :
    bucketsFind (breakdownStep b r) k =
      if encounterB r k then some ((bucketsFind b k).getD 0 + contrib r k)
      else bucketsFind b k := by
  unfold breakdownStep
  by_cases hexp : r.kind = "expense"
  · have hb : (r.kind == "expense") = true := by simp [hexp]
    simp only [hb, if_true]
    simp only [bucketsFind_add, bucketsFind_setdefault]
    by_cases hck : k = r.category
    · subst hck
      simp [encounterB, contrib, hexp]
    · have h1 : (r.category == k) = false := by simp [Ne.symm hck]
      simp [encounterB, hexp, hck, h1]
  · have hb : (r.kind == "expense") = false := by simp [hexp]
    simp only [hb, Bool.false_eq_true, if_false]
    simp only [bucketsFind_add, bucketsFind_setdefault]
    by_cases hki : k = "Income"
    · subst hki
      by_cases hck : ("Income" : String) = r.category
      · simp [← hck, encounterB, contrib, hexp]
      · have h1 : (r.category == "Income") = false := by simp [Ne.symm hck]
        simp [hck, h1, encounterB, contrib, hexp]
    · by_cases hck : k = r.category
      · subst hck
        simp [encounterB, contrib, hexp, hki]
      · have h1 : (r.category == k) = false := by simp [Ne.symm hck]
        simp [encounterB, hexp, hki, hck, h1]

theorem foldl_breakdownStep (rs : List Record) (b : List (String × ℚ)) (k : String) :
    bucketsFind (rs.foldl breakdownStep b) k = specAccum (bucketsFind b k) rs k := by
  induction rs generalizing b with
  | nil => rfl
  | cons r rs ih =>
    simp only [List.foldl_cons, specAccum] at ih ⊢
    rw [ih, breakdownStep_find]

theorem contrib_eq_zero (r : Record) (k : String) (h : encounterB r k = false) :
    contrib r k = 0 := by
  unfold encounterB at h
  unfold contrib
  by_cases hexp : r.kind = "expense" <;> simp [hexp] at h ⊢ <;> simp [h]

theorem specAccum_some (rs : List Record) (x : ℚ) (k : String) :
    specAccum (some x) rs k = some (x + sumContrib rs k) := by
  induction rs generalizing x with
  | nil => simp [specAccum, sumContrib]
  | cons r rs ih =>
    simp only [specAccum, List.foldl_cons] at ih ⊢
    by_cases he : encounterB r k = true
    · simp only [he, if_true, Option.getD_some]
      rw [ih]
      simp [sumContrib]
      ring
    · have he2 : encounterB r k = false := by simpa using he
      have hc : contrib r k = 0 := contrib_eq_zero r k he2
      simp only [he2, Bool.false_eq_true, if_false]
      rw [ih]
      simp [sumContrib, hc]

theorem specAccum_none (rs : List Record) (k : String) :
    specAccum none rs k =
      if rs.any (fun r => encounterB r k) then some (sumContrib rs k) else none := by
  induction rs with
  | nil => simp [specAccum]
  | cons r rs ih =>
    simp only [specAccum, List.foldl_cons] at ih ⊢
    by_cases he : encounterB r k = true
    · simp only [he, if_true, Option.getD_none, List.any_cons, Bool.true_or]
      have h := specAccum_some rs (0 + contrib r k) k
      simp only [specAccum] at h
      rw [h]
      simp [sumContrib]
    · have he2 : encounterB r k = false := by simpa using he
      have hc : contrib r k = 0 := contrib_eq_zero r k he2
      simp only [he2, Bool.false_eq_true, if_false, List.any_cons, Bool.false_or]
      rw [ih]
      by_cases ha : rs.any (fun r => encounterB r k) <;> simp [ha, sumContrib, hc]

theorem sum_map_ite (rs : List Record) (p : Record → Bool) :
    (rs.map (fun r => if p r then r.amount else 0)).sum =
      ((rs.filter p).map Record.amount).sum := by
  induction rs with
  | nil => rfl
  | cons r rs ih => by_cases h : p r <;> simp [List.filter_cons, h, ih]

theorem sumContrib_ne_Income (rs : List Record) (k : String) (hk : k ≠ "Income") :
    sumContrib rs k = catExpenseSum rs k := by
  unfold sumContrib catExpenseSum
  rw [← sum_map_ite]
  have h : ∀ r ∈ rs, contrib r k =
      if r.kind == "expense" && r.category == k then r.amount else 0 := by
    intro r _
    by_cases hexp : r.kind = "expense" <;>
      by_cases hc : r.category = k <;> simp [contrib, hexp, hc, hk]
  rw [List.map_congr_left h]

theorem sumContrib_Income (rs : List Record) (wf : KindsWF rs) :
    sumContrib rs "Income" = incomeSum rs + catExpenseSum rs "Income" := by
  unfold sumContrib
  have h : ∀ r ∈ rs, contrib r "Income" =
      (if r.kind == "income" then r.amount else 0) +
      (if r.kind == "expense" && r.category == "Income" then r.amount else 0) := by
    intro r hr
    rcases wf r hr with hk | hk <;>
      by_cases hc : r.category = "Income" <;> simp [contrib, hk, hc]
  rw [List.map_congr_left h, List.sum_map_add]
  congr 1
  · rw [sum_map_ite]
    rfl
  · rw [sum_map_ite]
    rfl

theorem any_encounter_ne (rs : List Record) (k : String) (hk : k ≠ "Income") :
    (rs.any (fun r => encounterB r k)) = true ↔ ∃ r ∈ rs, r.category = k := by
  simp [List.any_eq_true, encounterB, hk]

theorem any_encounter_Income (rs : List Record) (wf : KindsWF rs) :
    (rs.any (fun r => encounterB r "Income")) = true ↔
      ∃ r ∈ rs, r.kind = "income" ∨ r.category = "Income" := by
  simp only [List.any_eq_true]
  constructor <;> rintro ⟨r, hr, h⟩ <;> refine ⟨r, hr, ?_⟩ <;>
    rcases wf r hr with hk | hk <;> simp [encounterB, hk] at h ⊢ <;> tauto

/-- Claim C6: for every record set and optional half-open range, the
category breakdown maps each non-`Income` key `k` to the sum of expense
amounts of category `k`, present exactly when some filtered record has
category `k` (so a category encountered only through income records gets
a zero bucket); the `Income` bucket collects every income record's
amount (plus expenses whose own category is literally `Income`), present
exactly when some filtered record is income or has category `Income`. -/
theorem claim_c6 (recs : List Record) (start stop : Option String)
    (wf : KindsWF recs) (k : String) :
    bucketsFind (category_breakdown recs start stop) k =
      (if k = "Income" then
        (if ∃ r ∈ filter_records recs start stop,
            r.kind = "income" ∨ r.category = "Income"
         then some (incomeSum (filter_records recs start stop) +
            catExpenseSum (filter_records recs start stop) "Income")
         else none)
      else
        (if ∃ r ∈ filter_records recs start stop, r.category = k
         then some (catExpenseSum (filter_records recs start stop) k)
         else none)) := by
  have wfr : KindsWF (filter_records recs start stop) := fun r hr =>
    wf r (mem_filter_records recs start stop r hr)
  unfold category_breakdown
  rw [foldl_breakdownStep]
  have h0 : bucketsFind [] k = none := rfl
  rw [h0, specAccum_none]
  by_cases hk : k = "Income"
  · subst hk
    rw [if_pos rfl]
    by_cases ha : ((filter_records recs start stop).any
        (fun r => encounterB r "Income")) = true
    · rw [if_pos ha, if_pos ((any_encounter_Income _ wfr).mp ha),
        sumContrib_Income _ wfr]
    · have hb : ¬ ∃ r ∈ filter_records recs start stop,
          r.kind = "income" ∨ r.category = "Income" :=
        fun hc => ha ((any_encounter_Income _ wfr).mpr hc)
      rw [if_neg (by simpa using ha), if_neg hb]
  · rw [if_neg hk]
    by_cases ha : ((filter_records recs start stop).any
        (fun r => encounterB r k)) = true
    · rw [if_pos ha, if_pos ((any_encounter_ne _ k hk).mp ha),
        sumContrib_ne_Income _ k hk]
    · have hb : ¬ ∃ r ∈ filter_records recs start stop, r.category = k :=
        fun hc => ha ((any_encounter_ne _ k hk).mpr hc)
      rw [if_neg (by simpa using ha), if_neg hb]

/-- Witness for C6 at the example records (an income of category
`salary`, an expense of category `food`, no range): `salary` gets a zero
bucket, `food` the expense amount, `Income` the income amount. -/
theorem claim_c6_witness :
    KindsWF exampleRecords ∧
    bucketsFind (category_breakdown exampleRecords none none) "salary" =
      (if ∃ r ∈ filter_records exampleRecords none none, r.category = "salary"
       then some (catExpenseSum (filter_records exampleRecords none none) "salary")
       else none) := by
  refine ⟨by decide, ?_⟩
  have h := claim_c6 exampleRecords none none (by decide) "salary"
  simpa using h

theorem normMonth_pos (y m : ℤ) (h1 : 1 ≤ m) (h2 : m ≤ 12) :
    normMonth y m = ((12 * y + m - 1) / 12, (12 * y + m - 1) % 12 + 1) := by
  rw [normMonth]
  rw [if_neg (by omega)]
  have hy : (12 * y + m - 1) / 12 = y := by omega
  have hm : (12 * y + m - 1) % 12 + 1 = m := by omega
  rw [hy, hm]

theorem normMonth_spec_aux (c : ℕ) : ∀ y m : ℤ, (1 - m).toNat ≤ c → m ≤ 12 →
    normMonth y m = ((12 * y + m - 1) / 12, (12 * y + m - 1) % 12 + 1) := by
  induction c with
  | zero =>
    intro y m hc hm
    exact normMonth_pos y m (by omega) hm
  | succ c ih =>
    intro y m hc hm
    by_cases h0 : m ≤ 0
    · rw [normMonth, if_pos h0]
      rw [ih (y - 1) (m + 12) (by omega) (by omega)]
      have he : 12 * (y - 1) + (m + 12) - 1 = 12 * y + m - 1 := by ring
      rw [he]
    · exact normMonth_pos y m (by omega) hm

/-- The normalization loop computes floor division of the absolute month
index, whenever the incoming month is at most 12 (as it always is in
`monthly_series`). -/
theorem normMonth_spec (y m : ℤ) (hm : m ≤ 12) :
    normMonth y m = ((12 * y + m - 1) / 12, (12 * y + m - 1) % 12 + 1) :=
  normMonth_spec_aux (1 - m).toNat y m le_rfl hm

theorem monthEnd_spec (n : ℤ) :
    monthEnd (n / 12) (n % 12 + 1) = ((n + 1) / 12, (n + 1) % 12 + 1) := by
  unfold monthEnd
  by_cases h : n % 12 + 1 = 12
  · rw [if_pos (by simp [h])]
    simp only [Prod.mk.injEq]
    constructor <;> omega
  · rw [if_neg (by simp [h])]
    simp only [Prod.mk.injEq]
    constructor <;> omega

theorem month_entry_spec (recs : List Record) (wf : KindsWF recs) (n : ℤ) :
    month_entry recs (n / 12) (n % 12 + 1) = specMonthEntry recs n := by
  unfold month_entry specMonthEntry
  rw [monthEnd_spec]
  have wfr : KindsWF (filter_records recs
      (some (monthStartIso (n / 12) (n % 12 + 1)))
      (some (monthStartIso ((n + 1) / 12) ((n + 1) % 12 + 1)))) := fun r hr =>
    wf r (mem_filter_records _ _ _ r hr)
  simp only [incExpFold_eq]
  rw [nonIncomeSum_eq_expenseSum _ wfr]

/-- Claim C7: for a positive `months` and a current date with a valid
month number, `monthly_series` returns exactly `months` entries; the
entry at position `j` is the month whose absolute index is
`(12*ty + tm - 1) - (months - 1 - j)` — i.e. consecutive calendar
months, oldest first, ending with the current month at the last
position — with its label and income/expense sums computed over the
half-open `[start of month, start of next month)` string range. -/
theorem claim_c7 (recs : List Record) (ty tm : ℤ) (months : ℕ)
    (hmonths : 0 < months) (h1 : 1 ≤ tm) (h2 : tm ≤ 12) (wf : KindsWF recs) :
    (monthly_series recs ty tm months).length = months ∧
    ∀ j : ℕ, j < months →
      (monthly_series recs ty tm months)[j]? =
        some (specMonthEntry recs
          (12 * ty + tm - 1 - ((months - 1 - j : ℕ) : ℤ))) := by
  constructor
  · simp [monthly_series]
  · intro j hj
    unfold monthly_series
    rw [List.getElem?_map]
    have hrev : ((List.range months).reverse)[j]? = some (months - 1 - j) := by
      rw [List.getElem?_reverse (by simpa using hj)]
      rw [List.length_range]
      exact List.getElem?_range (by omega)
    rw [hrev]
    simp only [Option.map_some']
    rw [normMonth_spec ty (tm - ((months - 1 - j : ℕ) : ℤ)) (by omega)]
    dsimp only
    have harg : 12 * ty + (tm - ((months - 1 - j : ℕ) : ℤ)) - 1 =
        12 * ty + tm - 1 - ((months - 1 - j : ℕ) : ℤ) := by ring
    rw [harg, month_entry_spec recs wf]

/-- Witness for C7: two months ending 2025-04. -/
theorem claim_c7_witness :
    0 < 2 ∧ 1 ≤ (4 : ℤ) ∧ (4 : ℤ) ≤ 12 ∧ KindsWF exampleRecords ∧
    ((monthly_series exampleRecords 2025 4 2).length = 2 ∧
      ∀ j : ℕ, j < 2 →
        (monthly_series exampleRecords 2025 4 2)[j]? =
          some (specMonthEntry exampleRecords
            (12 * 2025 + 4 - 1 - ((2 - 1 - j : ℕ) : ℤ)))) :=
  ⟨by decide, by decide, by decide, by decide,
    claim_c7 exampleRecords 2025 4 2 (by decide) (by decide) (by decide) (by decide)⟩

end ExpenseManager
